import Mathlib

/-!
Verification of the shiplot transfer core: a shallow embedding of the
destination registry (`pathList`), the transfer state machines of the
`sower` package, and the length-prefixed wire protocol of the TCP
client/server pair, together with theorems settling the specified
properties against the embedded code.

Bytes are modelled as `Nat` with explicit `% 256` where the Go code
casts to `byte`; streams are `List Nat`; `uint64` values are `Nat`
constrained by `< 2 ^ 64` where it matters.
-/

namespace Shiplot

/-! ## Wire protocol

The frame format implemented by `TcpClient.writeFileName` /
`writeFileSize` and decoded by `TcpServer.readFileName` /
`readFileSize`:
one length byte, the raw name bytes, then the 8-byte little-endian size.
-/

/-- The byte string ".plot": the plot-file suffix the server validates. -/
def plotSuffixBytes : List Nat := [46, 112, 108, 111, 116]

/-- Models `strings.HasSuffix(name, ".plot")` on the raw bytes of the name. -/
def hasPlotSuffix (name : List Nat) : Bool := plotSuffixBytes.isSuffixOf name

/-- Embeds `TcpClient.writeFileName`: it writes the single byte
`byte(len(name))`, which truncates the length modulo 256, followed by all
the bytes of the name.  The Go function itself never rejects a name; its
only error exits propagate write failures of the underlying connection,
so against a non-failing writer it always emits exactly these bytes. -/
def writeFileName (name : List Nat) : List Nat :=
  (name.length % 256) :: name

/-- Embeds `TcpClient.writeFileSize`: `binary.LittleEndian.PutUint64`
lays out the eight bytes `byte(v >> (8*k))` for `k = 0..7`. -/
def writeFileSize (size : Nat) : List Nat :=
  [size % 256, size / 2 ^ 8 % 256, size / 2 ^ 16 % 256, size / 2 ^ 24 % 256,
   size / 2 ^ 32 % 256, size / 2 ^ 40 % 256, size / 2 ^ 48 % 256, size / 2 ^ 56 % 256]

/-- Embeds `binary.LittleEndian.Uint64`: combines a byte list
little-endian, least significant byte first. -/
def leUint64 (b : List Nat) : Nat :=
  b.foldr (fun x acc => x + 256 * acc) 0

/-- Embeds `TcpServer.readFileName`: reads one length byte, reads that
many name bytes (`io.ReadFull` fails if the stream is shorter), and
rejects the name unless it ends with ".plot".  Returns the decoded name
and the unconsumed rest of the stream, or `none` on any error. -/
def readFileName (s : List Nat) : Option (List Nat × List Nat) :=
  match s with
  | [] => none
  | n :: rest =>
    if rest.length < n then none
    else if hasPlotSuffix (rest.take n) then some (rest.take n, rest.drop n)
    else none

/-- Embeds `TcpServer.readFileSize`: reads exactly eight bytes
(`io.ReadFull`) and combines them little-endian. -/
def readFileSize (s : List Nat) : Option (Nat × List Nat) :=
  if s.length < 8 then none
  else some (leUint64 (s.take 8), s.drop 8)

/-- Result of one inbound connection in `TcpServer.handleRequest`:
either the request was rejected before the orchestrator was ever
consulted (the one reply byte is recorded), or the decoded name and size
were handed to `Sower.enqueuePlotDownload` (the reply byte then reflects
the job outcome). -/
inductive ServerReply where
  | rejected (reply : List Nat)
  | enqueued (name : List Nat) (size : Nat) (reply : List Nat)
  deriving DecidableEq

/-- Embeds `TcpServer.handleRequest`: decode the name (on error write the
failure byte 0 and stop), decode the size (same), then hand the job to
the orchestrator; `jobOk` stands for the outcome of the enqueued job,
which decides the final reply byte. -/
def handleRequest (jobOk : Bool) (s : List Nat) : ServerReply :=
  match readFileName s with
  | none => .rejected [0]
  | some (name, rest) =>
    match readFileSize rest with
    | none => .rejected [0]
    | some (size, _body) =>
      if jobOk then .enqueued name size [1] else .enqueued name size [0]

/-- The byte string ".plot.tmp": the suffix the older server lineage
validates instead of ".plot". -/
def plotTmpSuffixBytes : List Nat :=
  [46, 112, 108, 111, 116, 46, 116, 109, 112]

/-- Embeds `readFileName` of the older server lineage
(internal/tcp/server.go): a single `conn.Read` into a fixed 256-byte
buffer (modelled as returning min(256, available) bytes and failing only
on an empty stream), the entire zero-padded buffer taken as the name
via `string(fileNameBytes)`, accepted only when it ends with
".plot.tmp". -/
def readFileNameOld (s : List Nat) : Option (List Nat × List Nat) :=
  if s.length = 0 then none
  else
    if plotTmpSuffixBytes.isSuffixOf (s.take 256 ++ List.replicate (256 - s.length) 0)
    then some (s.take 256 ++ List.replicate (256 - s.length) 0, s.drop 256)
    else none

/-- Embeds `Server.handleRequest` of the older lineage
(internal/tcp/server.go): read the name with the ".plot.tmp"
validation, read the size, then hand `(name, size, conn)` to
`Sower.SavePlot`, which submits the job to the worker pool (the job
claims a destination volume when it runs) and returns at once;
`handleRequest` writes the success byte 1 as soon as that submission
succeeded. -/
def handleRequestOld (submitOk : Bool) (s : List Nat) : ServerReply :=
  match readFileNameOld s with
  | none => .rejected [0]
  | some (name, rest) =>
    match readFileSize rest with
    | none => .rejected [0]
    | some (size, _body) =>
      if submitOk then .enqueued name size [1] else .rejected [0]

/-- A 256-byte name: 247 bytes of "a" followed by ".plot.tmp".  It does
not end with ".plot". -/
def oldLineageName : List Nat := List.replicate 247 97 ++ plotTmpSuffixBytes

/-- The ASCII bytes of "plot123.plot" (12 bytes). -/
def plotName : List Nat := [112, 108, 111, 116, 49, 50, 51, 46, 112, 108, 111, 116]

/-- The ASCII bytes of "test.plot" (9 bytes). -/
def testPlotName : List Nat := [116, 101, 115, 116, 46, 112, 108, 111, 116]

/-! ## Destination registry (`pathList`)

One registry entry corresponds to one Go `*path`.  Pointer identity of
the `*path` values is modelled by the field `pid`, which every operation
preserves; `free` models `usage.Free()`; `available` the availability
flag.  Every exported `pathList` method runs entirely inside
`pathListMutex`, so each is embedded as one atomic function on the
registry state.
-/

structure DestPath where
  pid : Nat
  name : String
  free : Nat
  available : Bool
  deriving DecidableEq

/-- The first-lineage comparison `pathList.Less`:
`pl[i].usage.Free() > pl[j].usage.Free()`, so `sort.Sort` orders the
list by descending free space.  The sorted order is characterised by the
non-strict relation below (an element placed before another is not
smaller). -/
def descFree (a b : DestPath) : Prop := b.free ≤ a.free

instance : DecidableRel descFree := fun a b => Nat.decLe b.free a.free

instance : IsTotal DestPath descFree := ⟨fun a b => Nat.le_total b.free a.free⟩

instance : IsTrans DestPath descFree := ⟨fun _ _ _ h1 h2 => Nat.le_trans h2 h1⟩

/-- The second-lineage comparison `pathList.Less`:
`pl[i].usage.Free() < pl[j].usage.Free()`, ordering the list by
ascending free space. -/
def ascFree (a b : DestPath) : Prop := a.free ≤ b.free

instance : DecidableRel ascFree := fun a b => Nat.decLe a.free b.free

/-- `sort.Sort(pl)` under the first-lineage (descending) `Less`. -/
def sortDesc (pl : List DestPath) : List DestPath :=
  pl.insertionSort descFree

/-- The search-and-mark loop of `pathList.FirstAvailable`: walk the
(already sorted) list, and at the first entry with `available = true`
set the flag to `false` and return that same entry (Go returns the
mutated `*path`). -/
def markFirstAvail : List DestPath → List DestPath × Option DestPath
  | [] => ([], none)
  | p :: ps =>
    if p.available then
      ({ p with available := false } :: ps, some { p with available := false })
    else
      let r := markFirstAvail ps
      (p :: r.1, r.2)

/-- Embeds the first-lineage `pathList.FirstAvailable`: under the lock,
sort by descending free space, then claim the first available entry.
Returns the new registry state and the claimed entry (none if no entry
is available). -/
def firstAvailable (pl : List DestPath) : List DestPath × Option DestPath :=
  markFirstAvail (sortDesc pl)

/-- Embeds the second-lineage `pathList.FirstAvailable`, whose `Less`
sorts ascending: the same claim loop over the ascending-sorted list
(the index the Go version also returns is irrelevant to the claims and
omitted). -/
def firstAvailableAsc (pl : List DestPath) : List DestPath × Option DestPath :=
  markFirstAvail (pl.insertionSort ascFree)

/-- Embeds the first-lineage `pathList.Update(path, available)`: find the
entry with the identity of the given `*path`, set its availability flag,
refresh its free space (`du.NewDiskUsage` is an external query, modelled
by the parameter `newFree`), and re-sort.  With distinct identities the
map below rewrites exactly the entry Go rewrites. -/
def update (pl : List DestPath) (pid : Nat) (avail : Bool) (newFree : Nat) :
    List DestPath :=
  sortDesc (pl.map fun p =>
    if p.pid = pid then { p with available := avail, free := newFree } else p)

/-- The two volumes-demo registry of the capacity-ordering scenario:
A with 100 free, B with 200 free, C with 50 free, all available. -/
def volA : DestPath := ⟨0, "A", 100, true⟩

def volB : DestPath := ⟨1, "B", 200, true⟩

def volC : DestPath := ⟨2, "C", 50, true⟩

def capacityDemo : List DestPath := [volA, volB, volC]

/-- Registry state after claiming B from `capacityDemo`. -/
def capacityStep1 : List DestPath := (firstAvailable capacityDemo).1

/-- State after releasing B with its free space refreshed to 20 (a
180-sized file was placed on it). -/
def capacityStep2 : List DestPath := update capacityStep1 1 true 20

/-- State after then claiming A. -/
def capacityStep3 : List DestPath := (firstAvailable capacityStep2).1

/-- State after releasing A with its free space refreshed to 10. -/
def capacityStep4 : List DestPath := update capacityStep3 0 true 10

/-! ## Registry operation traces

`pathListMutex` serialises every registry operation, so an arbitrary
interleaving of N concurrent workers is exactly an arbitrary finite
sequence of atomic registry operations.  `RegOp.claim` is a
`FirstAvailable` call (selection and marking-unavailable in one step, as
in the Go code, which does both inside one locked region);
`RegOp.setAvail pid b f` is an `Update(path, b)` call on the volume with
identity `pid`, with the externally queried fresh free space `f`.  An
`Update` on an identity not present in the registry is modelled as a
no-op (workers only ever pass pointers obtained from `FirstAvailable`,
which stay in the list). -/

inductive RegOp where
  | claim : RegOp
  | setAvail (pid : Nat) (avail : Bool) (newFree : Nat) : RegOp
  deriving DecidableEq

/-- One atomic registry operation: the new registry state, plus the
identity of the claimed volume for a `claim` that found one. -/
def applyOp (s : List DestPath) : RegOp → List DestPath × Option Nat
  | .claim => ((firstAvailable s).1, (firstAvailable s).2.map DestPath.pid)
  | .setAvail pid b f => (update s pid b f, none)

/-- Run a sequence of registry operations. -/
def runOps (s : List DestPath) (ops : List RegOp) : List DestPath :=
  ops.foldl (fun st op => (applyOp st op).1) s

/-- The value returned by the i-th operation of a trace (the claimed
volume identity for a successful `claim`, `none` otherwise). -/
def opResult (s : List DestPath) (ops : List RegOp) (i : Nat) : Option Nat :=
  match ops[i]? with
  | some op => (applyOp (runOps s (ops.take i)) op).2
  | none => none

/-- The volume with identity `v` is marked unavailable wherever it
occurs in the registry. -/
def unavailIn (s : List DestPath) (v : Nat) : Prop :=
  ∀ p ∈ s, p.pid = v → p.available = false

/-- Pointer identities are pairwise distinct (Go `*path` values are). -/
def pidsNodup (s : List DestPath) : Prop :=
  (s.map DestPath.pid).Nodup

/-- The operation is a release of volume `v`: an `Update`/`SetAvailable`
with `available = true` on that volume. -/
def isRelease (v : Nat) : RegOp → Prop
  | .claim => False
  | .setAvail pid b _ => pid = v ∧ b = true

/-- Demo registry and trace for the witness of C1. -/
def traceDemoState : List DestPath := [⟨0, "W", 5, true⟩]

def traceDemoOps : List RegOp :=
  [RegOp.claim, RegOp.setAvail 0 true 5, RegOp.claim]

/-! ## Eviction: `pathList.Remove`

`Remove` (first lineage) is embedded statement by statement.  The Go
`copy(dst, src)` built-in copies `min(len(dst), len(src))` elements of
`src` over the front of `dst`; `slices.Index` yields the index of the
target or -1; the final `pl = &newList` rebinds only the local receiver
variable, so the list the caller holds is never modified.  The embedding
returns the pair (caller-visible registry after the call, discarded
local `newList`). -/

def goCopy (dst src : List DestPath) : List DestPath :=
  src.take dst.length ++ dst.drop (min dst.length src.length)

/-- Models `slices.Index(l, target)` with pointer identity `v`;
`none` stands for -1. -/
def slicesIndex (l : List DestPath) (v : Nat) : Option Nat :=
  l.findIdx? (fun p => p.pid = v)

def removeGo (pl : List DestPath) (v : Nat) : List DestPath × List DestPath :=
  let newList : List DestPath := []
  let newList := goCopy newList pl
  let newList :=
    match slicesIndex newList v with
    | some i => newList.take i ++ newList.drop (i + 1)
    | none => newList
  (pl, newList)

/-- The registry of `TestRemove`: three volumes, the third unavailable
(free space is irrelevant to `Remove` and set to 0 as the mocked
`du.NewDiskUsage("blank")` of the test is never consulted). -/
def removeDemo : List DestPath :=
  [⟨0, "/test1", 0, true⟩, ⟨1, "/test2", 0, true⟩, ⟨2, "/test3", 0, false⟩]

/-! ## Worker pool sizing -/

/-- Embeds `Sower.getPoolSize` (local/server lineage):
`poolSize := int(cfg.MaxThreads)`; if zero use the number of registry
volumes, otherwise cap by it; finally a zero result is lifted to 1. -/
def getPoolSize (maxThreads pathCount : Nat) : Nat :=
  let p0 := maxThreads
  let p1 := if p0 = 0 then pathCount else if pathCount < p0 then pathCount else p0
  if p1 = 0 then 1 else p1

/-- Embeds `Sower.getPoolSize` of the client-mode lineage, which first
returns `int(cfg.MaxThreads)` unchanged whenever `cfg.Client.Enabled`
is set, and otherwise computes exactly as the other lineage. -/
def getPoolSizeClient (clientEnabled : Bool) (maxThreads pathCount : Nat) : Nat :=
  if clientEnabled then maxThreads
  else
    let p1 :=
      if maxThreads = 0 then pathCount
      else if pathCount < maxThreads then pathCount else maxThreads
    if p1 = 0 then 1 else p1

/-- The orchestrator state the destination-selection loop manipulates:
the registry, the live worker-pool capacity (`pool.Cap()`), and the
configured `MaxThreads`. -/
structure SowerState where
  paths : List DestPath
  poolCap : Nat
  maxThreads : Nat
  deriving DecidableEq

/-- Result of one iteration of the destination-selection loop. -/
inductive SelectStep where
  | selected (p : DestPath) (st : SowerState)
  | backoff (st : SowerState)
  | evicted (st : SowerState)
  deriving DecidableEq

/-- One iteration of the destination-selection loop of
`Sower.getDestinationPath` / `movePlot` (part_002 lines 233-258): claim
the first available path (marking it unavailable); if none, sleep the
backoff interval and retry; if the claimed path's free space is not
strictly greater than the file size, evict it via `paths.Remove`,
recompute `getPoolSize` and `Tune` the pool to it when the current
capacity differs, and retry. -/
def selectLoopIter (st : SowerState) (fileSize : Nat) : SelectStep :=
  match firstAvailable st.paths with
  | (pl2, none) => .backoff { st with paths := pl2 }
  | (pl2, some p) =>
    if fileSize < p.free then .selected p { st with paths := pl2 }
    else
      let pl3 := (removeGo pl2 p.pid).1
      let size := getPoolSize st.maxThreads pl3.length
      let cap2 := if st.poolCap ≠ size then size else st.poolCap
      .evicted { paths := pl3, poolCap := cap2, maxThreads := st.maxThreads }

/-- The selection-loop state of the eviction scenario: the three demo
volumes, pool capacity 3, configured MaxThreads 0. -/
def evictDemoState : SowerState := ⟨capacityDemo, 3, 0⟩

/-! ## Transfer state machines

The per-job control flow of the three transfer functions is embedded as
a function from an environment (which of the fallible external steps
succeed, and how many bytes the copy reports) to the observable effects
of the job.  The destination claim itself (`getDestinationPath` /
`FirstAvailable`) is assumed to have succeeded with sufficient space;
the claim/release bookkeeping is what the effects record. -/

/-- Success/failure of each external step of `Sower.movePlot`
(part_002 lineage). -/
structure MoveEnv where
  openOk : Bool
  statOk : Bool
  createOk : Bool
  copyOk : Bool
  renameOk : Bool
  srcCloseOk : Bool
  dstCloseOk : Bool
  srcRemoveOk : Bool
  deriving DecidableEq

/-- Observable effects of one `movePlot` job: whether a destination was
claimed, how many times `paths.Update(dstPath, true)` released it,
whether the temp file was renamed to its final name, whether deleting
the source was attempted / succeeded, and whether the job failed. -/
structure MoveOutcome where
  claimed : Bool
  releases : Nat
  renamed : Bool
  srcDeleteTried : Bool
  srcDeleted : Bool
  failed : Bool
  deriving DecidableEq

/-- Embeds `Sower.movePlot` (part_002 lineage): open source, stat it,
claim a destination, create the temp file, copy, rename, close source,
close destination, delete the source, release.  Each failing step logs
and returns; the release is the `paths.Update(dstPath, true)` call on
the exit path taken.  Note the source-delete failure path returns
before the final `paths.Update(dstPath, true)`. -/
def movePlot (e : MoveEnv) : MoveOutcome :=
  if e.openOk = false then
    { claimed := false, releases := 0, renamed := false,
      srcDeleteTried := false, srcDeleted := false, failed := true }
  else if e.statOk = false then
    { claimed := false, releases := 0, renamed := false,
      srcDeleteTried := false, srcDeleted := false, failed := true }
  else if e.createOk = false then
    { claimed := true, releases := 1, renamed := false,
      srcDeleteTried := false, srcDeleted := false, failed := true }
  else if e.copyOk = false then
    { claimed := true, releases := 1, renamed := false,
      srcDeleteTried := false, srcDeleted := false, failed := true }
  else if e.renameOk = false then
    { claimed := true, releases := 1, renamed := false,
      srcDeleteTried := false, srcDeleted := false, failed := true }
  else if e.srcCloseOk = false then
    { claimed := true, releases := 1, renamed := true,
      srcDeleteTried := false, srcDeleted := false, failed := true }
  else if e.dstCloseOk = false then
    { claimed := true, releases := 1, renamed := true,
      srcDeleteTried := false, srcDeleted := false, failed := true }
  else if e.srcRemoveOk = false then
    { claimed := true, releases := 0, renamed := true,
      srcDeleteTried := true, srcDeleted := false, failed := true }
  else
    { claimed := true, releases := 1, renamed := true,
      srcDeleteTried := true, srcDeleted := true, failed := false }

/-- Every step of `movePlot` succeeding. -/
def moveAllOk : MoveEnv :=
  ⟨true, true, true, true, true, true, true, true⟩

/-- All steps succeed except deleting the source file. -/
def moveSrcRemoveFail : MoveEnv := { moveAllOk with srcRemoveOk := false }

/-- All steps succeed except the rename. -/
def moveRenameFail : MoveEnv := { moveAllOk with renameOk := false }

/-- Success/failure of each external step of `Sower.savePlot`
(the lineage with the written-size check), plus the byte count the copy
reports and the declared size. -/
structure SaveEnv where
  createOk : Bool
  copyOk : Bool
  written : Nat
  size : Nat
  renameOk : Bool
  closeOk : Bool
  deriving DecidableEq

/-- Observable effects of one `savePlot` job. -/
structure SaveOutcome where
  tmpRemoved : Bool
  renamed : Bool
  releases : Nat
  failed : Bool
  deriving DecidableEq

/-- Embeds `Sower.savePlot`: claim a destination
(`getDestinationPath`), create the temp file, copy the stream into it,
compare the written byte count against the declared size (on mismatch
delete the temp file), rename, close; every failure path releases the
volume with `paths.Update(dstPath, true)` and returns an error, the
success path releases it once at the end. -/
def savePlot (e : SaveEnv) : SaveOutcome :=
  if e.createOk = false then
    { tmpRemoved := false, renamed := false, releases := 1, failed := true }
  else if e.copyOk = false then
    { tmpRemoved := false, renamed := false, releases := 1, failed := true }
  else if e.written ≠ e.size then
    { tmpRemoved := true, renamed := false, releases := 1, failed := true }
  else if e.renameOk = false then
    { tmpRemoved := false, renamed := false, releases := 1, failed := true }
  else if e.closeOk = false then
    { tmpRemoved := false, renamed := true, releases := 1, failed := true }
  else
    { tmpRemoved := false, renamed := true, releases := 1, failed := false }

/-- Embeds the reply bytes one connection sees from `Server.handleRequest`
(internal/tcp/server.go) for a decoded save job: `Sower.SavePlot` merely
submits the job to the worker pool and returns, so `handleRequest`
writes the success byte 1 as soon as the submission succeeds — before
the job has run; when the submitted job later fails, its closure writes
the failure byte 0 and closes the connection, so the connection sees 1
followed by 0. -/
def savePlotWireReplies (submitOk : Bool) (e : SaveEnv) : List Nat :=
  if submitOk = false then [0]
  else 1 :: (if (savePlot e).failed then [0] else [])

/-- Success/failure of each external step of `Sower.enqueuePlotMove`
(the lineage in the newest revision), plus copy byte count and declared
size. -/
structure EnqMoveEnv where
  openOk : Bool
  statOk : Bool
  createOk : Bool
  copyOk : Bool
  written : Nat
  size : Nat
  renameOk : Bool
  removeOk : Bool
  deriving DecidableEq

/-- Observable effects of one `enqueuePlotMove` job.  `releases` counts
the `paths.SetAvailable(dstPath, true)` calls (one deferred at claim
time, one explicit before the final log line). -/
structure EnqMoveOutcome where
  claimed : Bool
  releases : Nat
  tmpRemoved : Bool
  renamed : Bool
  srcDeleteTried : Bool
  deriving DecidableEq

/-- Embeds `Sower.enqueuePlotMove`: open source (failure returns), stat
(failure returns), claim a destination and defer a release; from there
no step failure returns: temp-file creation, the copy, the size
mismatch check (which deletes the temp file), and the rename each only
log their error, after which `os.Remove(src.Name())` is executed
unconditionally and the volume is released again explicitly. -/
def enqueuePlotMove (e : EnqMoveEnv) : EnqMoveOutcome :=
  if e.openOk = false then
    { claimed := false, releases := 0, tmpRemoved := false,
      renamed := false, srcDeleteTried := false }
  else if e.statOk = false then
    { claimed := false, releases := 0, tmpRemoved := false,
      renamed := false, srcDeleteTried := false }
  else
    { claimed := true, releases := 2,
      tmpRemoved := decide (e.written ≠ e.size),
      renamed := e.renameOk, srcDeleteTried := true }

/-- Every step of `enqueuePlotMove` succeeding, 7 of 7 bytes copied. -/
def enqAllOk : EnqMoveEnv := ⟨true, true, true, true, 7, 7, true, true⟩

/-- All steps succeed except the rename. -/
def enqRenameFail : EnqMoveEnv := { enqAllOk with renameOk := false }

/-! ## Theorems: wire protocol -/

theorem length_writeFileSize (size : Nat) : (writeFileSize size).length = 8 := rfl

theorem readFileName_exact (name tail : List Nat)
    (hsuf : hasPlotSuffix name = true) :
    readFileName (name.length :: (name ++ tail)) = some (name, tail) := by
  simp only [readFileName]
  rw [if_neg (by simp [List.length_append])]
  rw [List.take_left, List.drop_left]
  simp [hsuf]

theorem leUint64_writeFileSize (size : Nat) (h : size < 2 ^ 64) :
    leUint64 (writeFileSize size) = size := by
  simp only [writeFileSize, leUint64, List.foldr]
  omega

/-- Claim C3 (amended): encoding "plot123.plot" with size 116823110451
produces the length byte 0x0C (12), the raw ASCII name bytes, then the
little-endian size bytes 0x33,0x33,0x33,0x33,0x1B,0x00,0x00,0x00; and for
every name of byte length 1..255 that ends with ".plot" and every uint64
size, the server-side decoders reproduce the name and the size from the
client-side encoding, leaving exactly the body behind. -/
theorem wire_framing_roundtrip :
    (writeFileName plotName ++ writeFileSize 116823110451
      = 12 :: plotName ++ [0x33, 0x33, 0x33, 0x33, 0x1B, 0x00, 0x00, 0x00])
  ∧ ∀ (name body : List Nat) (size : Nat),
      1 ≤ name.length → name.length ≤ 255 → hasPlotSuffix name = true →
      size < 2 ^ 64 →
      readFileName (writeFileName name ++ writeFileSize size ++ body)
          = some (name, writeFileSize size ++ body)
        ∧ readFileSize (writeFileSize size ++ body) = some (size, body) := by
  constructor
  · decide
  · intro name body size h1 h255 hsuf hsz
    have hmod : name.length % 256 = name.length := Nat.mod_eq_of_lt (by omega)
    constructor
    · have hshape : writeFileName name ++ writeFileSize size ++ body
          = name.length :: (name ++ (writeFileSize size ++ body)) := by
        simp [writeFileName, hmod, List.append_assoc]
      rw [hshape, readFileName_exact name (writeFileSize size ++ body) hsuf]
    · have h8 : ¬ (writeFileSize size ++ body).length < 8 := by
        simp [List.length_append, length_writeFileSize]
      simp only [readFileSize, if_neg h8]
      have ht : (writeFileSize size ++ body).take 8 = writeFileSize size := by
        rw [← length_writeFileSize size, List.take_left]
      have hd : (writeFileSize size ++ body).drop 8 = body := by
        rw [← length_writeFileSize size, List.drop_left]
      rw [ht, hd, leUint64_writeFileSize size hsz]

/-- Witness for C3: the round-trip theorem applied to the concrete name
"test.plot", size 7 and an empty body. -/
theorem wire_framing_roundtrip_witness :
    readFileName (writeFileName testPlotName ++ writeFileSize 7 ++ [])
        = some (testPlotName, writeFileSize 7 ++ [])
      ∧ readFileSize (writeFileSize 7 ++ []) = some (7, []) :=
  wire_framing_roundtrip.2 testPlotName [] 7 (by decide) (by decide) (by decide)
    (by decide)

/-- Counterexample for C3 as stated: the name "plot123.plot" has 12
bytes, so the emitted length byte is 0x0C and not the claimed 0x0D; and
the decoder does not reproduce every 1..255-byte name, because
`readFileName` rejects any name that does not end with ".plot" (here the
single byte name "a"). -/
theorem wire_framing_claim_counterexample :
    (writeFileName plotName ++ writeFileSize 116823110451
      ≠ 13 :: plotName ++ [0x33, 0x33, 0x33, 0x33, 0x1B, 0x00, 0x00, 0x00])
  ∧ readFileName (writeFileName [97] ++ writeFileSize 1) = none := by
  constructor
  · decide
  · decide

/-- Claim C9: an inbound request whose decoded file name does not end
with ".plot" is rejected inside `readFileName`, before `handleRequest`
ever reaches `enqueuePlotDownload`; the reply is the single failure byte
0, and no name/size is handed to the orchestrator. -/
theorem server_rejects_bad_suffix (jobOk : Bool) (n : Nat) (t : List Nat)
    (hn : n ≤ t.length) (hsuf : hasPlotSuffix (t.take n) = false) :
    handleRequest jobOk (n :: t) = .rejected [0]
  ∧ ∀ (nm : List Nat) (sz : Nat) (rp : List Nat),
      handleRequest jobOk (n :: t) ≠ .enqueued nm sz rp := by
  have hname : readFileName (n :: t) = none := by
    simp only [readFileName]
    rw [if_neg (by omega)]
    simp [hsuf]
  constructor
  · simp [handleRequest, hname]
  · intro nm sz rp
    simp [handleRequest, hname]

/-- Witness for C9: the four-byte name "test" (no ".plot" suffix) is
rejected with the failure byte. -/
theorem server_rejects_bad_suffix_witness :
    handleRequest true (4 :: [116, 101, 115, 116]) = ServerReply.rejected [0] :=
  (server_rejects_bad_suffix true 4 [116, 101, 115, 116] (by decide) (by decide)).1

set_option maxRecDepth 8192 in
/-- Counterexample for C9 as stated: the older cited server lineage
(internal/tcp/server.go) validates the suffix ".plot.tmp" on its fixed
256-byte buffer, so this 256-byte name — which does not end with
".plot" — is decoded, accepted and handed to `SavePlot` together with
the size (and `SavePlot`'s job claims a destination volume), with the
success byte 1 already written, instead of being rejected with the
failure byte 0. -/
theorem server_old_lineage_counterexample :
    hasPlotSuffix oldLineageName = false
  ∧ handleRequestOld true (oldLineageName ++ writeFileSize 7)
      = ServerReply.enqueued oldLineageName 7 [1] := by
  constructor
  · decide
  · decide

/-- Claim C10: for a name longer than 255 bytes, `writeFileName` still
succeeds and emits the length byte `len % 256` followed by all `len`
name bytes, so the declared name length on the wire disagrees with the
number of name bytes actually written. -/
theorem writeFileName_truncates_long_names (name : List Nat)
    (h : 255 < name.length) :
    writeFileName name = (name.length % 256) :: name
  ∧ (writeFileName name).length = name.length + 1
  ∧ name.length % 256 ≠ name.length := by
  refine ⟨rfl, by simp [writeFileName], ?_⟩
  have : name.length % 256 < 256 := Nat.mod_lt _ (by omega)
  omega

/-- Witness for C10: a 256-byte name is emitted with length byte 0. -/
theorem writeFileName_truncates_long_names_witness :
    writeFileName (List.replicate 256 97)
        = ((List.replicate 256 97 : List Nat).length % 256) :: List.replicate 256 97
  ∧ (writeFileName (List.replicate 256 97)).length
        = (List.replicate 256 97 : List Nat).length + 1
  ∧ (List.replicate 256 97 : List Nat).length % 256
        ≠ (List.replicate 256 97 : List Nat).length :=
  writeFileName_truncates_long_names (List.replicate 256 97)
    (by rw [List.length_replicate]; omega)

/-! ## Theorems: capacity ordering -/

theorem markFirstAvail_some_of_mem (l : List DestPath) (q : DestPath)
    (hq : q ∈ l) (hav : q.available = true) :
    ∃ p, (markFirstAvail l).2 = some p := by
  induction l with
  | nil => cases hq
  | cons x xs ih =>
    by_cases hx : x.available
    · exact ⟨{ x with available := false }, by simp [markFirstAvail, hx]⟩
    · rw [List.mem_cons] at hq
      rcases hq with hq | hq
      · subst hq; exact absurd hav hx
      · obtain ⟨p, hp⟩ := ih hq
        exact ⟨p, by simp [markFirstAvail, hx, hp]⟩

theorem markFirstAvail_orig_mem (l : List DestPath) (p : DestPath)
    (h : (markFirstAvail l).2 = some p) :
    { p with available := true } ∈ l ∧ p.available = false := by
  induction l with
  | nil => simp [markFirstAvail] at h
  | cons x xs ih =>
    obtain ⟨a, b, c, d⟩ := x
    by_cases hx : d = true
    · subst hx
      simp only [markFirstAvail, if_pos rfl] at h
      obtain rfl := Option.some.inj h
      exact ⟨List.mem_cons_self _ _, rfl⟩
    · have hd : ({ pid := a, name := b, free := c, available := d } :
          DestPath).available = false := by
        simpa using hx
      simp only [markFirstAvail] at h
      rw [if_neg (by simpa using hx)] at h
      obtain ⟨hm, hf⟩ := ih h
      exact ⟨List.mem_cons_of_mem _ hm, hf⟩

theorem markFirstAvail_max (l : List DestPath) (p : DestPath)
    (hs : List.Sorted descFree l) (h : (markFirstAvail l).2 = some p) :
    ∀ r ∈ l, r.available = true → r.free ≤ p.free := by
  induction l with
  | nil => simp [markFirstAvail] at h
  | cons x xs ih =>
    rw [List.sorted_cons] at hs
    by_cases hx : x.available
    · simp only [markFirstAvail, if_pos hx] at h
      obtain rfl := Option.some.inj h
      intro r hr _
      rw [List.mem_cons] at hr
      rcases hr with hr | hr
      · subst hr; exact Nat.le_refl _
      · exact hs.1 r hr
    · simp only [markFirstAvail, if_neg hx] at h
      intro r hr hav
      rw [List.mem_cons] at hr
      rcases hr with hr | hr
      · subst hr; exact absurd hav hx
      · exact ih hs.2 h r hr hav

/-- Claim C2 (amended, first lineage): whenever at least one volume is
available, the first-lineage `FirstAvailable` (descending `Less`) claims
an available volume whose free space is maximal among the available
volumes; concretely, on volumes {A:100, B:200, C:50} three selections
return B, then (after releasing B with its free space refreshed to 20)
A, then (after releasing A refreshed to 10) C. -/
theorem firstAvailable_greatest_free :
    (∀ (pl : List DestPath) (q : DestPath), q ∈ pl → q.available = true →
      ∃ p, (firstAvailable pl).2 = some p
        ∧ p.available = false
        ∧ { p with available := true } ∈ pl
        ∧ ∀ r ∈ pl, r.available = true → r.free ≤ p.free)
  ∧ ((firstAvailable capacityDemo).2.map DestPath.pid = some 1
      ∧ (firstAvailable capacityStep2).2.map DestPath.pid = some 0
      ∧ (firstAvailable capacityStep4).2.map DestPath.pid = some 2) := by
  constructor
  · intro pl q hq hav
    have hperm : (sortDesc pl).Perm pl := List.perm_insertionSort descFree pl
    have hsorted : List.Sorted descFree (sortDesc pl) :=
      List.sorted_insertionSort descFree pl
    obtain ⟨p, hp⟩ :=
      markFirstAvail_some_of_mem (sortDesc pl) q (hperm.mem_iff.2 hq) hav
    obtain ⟨hmem, hflag⟩ := markFirstAvail_orig_mem (sortDesc pl) p hp
    refine ⟨p, hp, hflag, hperm.mem_iff.1 hmem, ?_⟩
    intro r hr hrav
    exact markFirstAvail_max (sortDesc pl) p hsorted hp r (hperm.mem_iff.2 hr) hrav
  · refine ⟨by decide, by decide, by decide⟩

/-- Witness for C2: the general part applied to `capacityDemo` with the
available volume B. -/
theorem firstAvailable_greatest_free_witness :
    ∃ p, (firstAvailable capacityDemo).2 = some p
      ∧ p.available = false
      ∧ { p with available := true } ∈ capacityDemo
      ∧ ∀ r ∈ capacityDemo, r.available = true → r.free ≤ p.free :=
  firstAvailable_greatest_free.1 capacityDemo volB (by decide) (by decide)

/-- Counterexample for C2 as stated: the second-lineage `Less` sorts by
ascending free space, so its `FirstAvailable` on {A:100, B:200, C:50}
claims C (free 50, the least), not B (free 200) as the claim demands. -/
theorem firstAvailableAsc_counterexample :
    (firstAvailableAsc capacityDemo).2.map DestPath.free = some 50
  ∧ (firstAvailableAsc capacityDemo).2.map DestPath.pid = some 2
  ∧ (firstAvailableAsc capacityDemo).2.map DestPath.pid ≠ some 1 := by
  refine ⟨by decide, by decide, by decide⟩

/-! ## Theorems: at most one claim between releases -/

theorem markFirstAvail_map_pid (l : List DestPath) :
    (markFirstAvail l).1.map DestPath.pid = l.map DestPath.pid := by
  induction l with
  | nil => rfl
  | cons x xs ih =>
    by_cases hx : x.available
    · simp [markFirstAvail, hx]
    · simp [markFirstAvail, hx, ih]

theorem markFirstAvail_true_mem (l : List DestPath) (q : DestPath)
    (hq : q ∈ (markFirstAvail l).1) (hav : q.available = true) : q ∈ l := by
  induction l with
  | nil => simp [markFirstAvail] at hq
  | cons x xs ih =>
    by_cases hx : x.available
    · simp only [markFirstAvail, if_pos hx] at hq
      rw [List.mem_cons] at hq
      rcases hq with hq | hq
      · subst hq; simp at hav
      · exact List.mem_cons_of_mem _ hq
    · simp only [markFirstAvail, if_neg hx] at hq
      rw [List.mem_cons] at hq
      rcases hq with hq | hq
      · subst hq; exact List.mem_cons_self _ _
      · exact List.mem_cons_of_mem _ (ih hq)

theorem markFirstAvail_unavail (l : List DestPath) (p : DestPath)
    (hnd : (l.map DestPath.pid).Nodup) (h : (markFirstAvail l).2 = some p) :
    unavailIn (markFirstAvail l).1 p.pid := by
  induction l with
  | nil => simp [markFirstAvail] at h
  | cons x xs ih =>
    rw [List.map_cons, List.nodup_cons] at hnd
    by_cases hx : x.available
    · simp only [markFirstAvail, if_pos hx] at h ⊢
      obtain rfl := Option.some.inj h
      intro q hq hpid
      rw [List.mem_cons] at hq
      rcases hq with hq | hq
      · subst hq; rfl
      · exact absurd (hpid ▸ List.mem_map_of_mem DestPath.pid hq) hnd.1
    · simp only [markFirstAvail, if_neg hx] at h ⊢
      intro q hq hpid
      rw [List.mem_cons] at hq
      rcases hq with hq | hq
      · subst hq; simpa using hx
      · exact ih hnd.2 h q hq hpid

theorem unavailIn_of_perm {s t : List DestPath} (hperm : s.Perm t) (v : Nat)
    (h : unavailIn s v) : unavailIn t v :=
  fun p hp => h p (hperm.mem_iff.2 hp)

theorem firstAvailable_claims_available (s : List DestPath) (p : DestPath)
    (h : (firstAvailable s).2 = some p) :
    ∃ q ∈ s, q.pid = p.pid ∧ q.available = true := by
  obtain ⟨hm, _⟩ := markFirstAvail_orig_mem (sortDesc s) p h
  exact ⟨{ p with available := true },
    (List.perm_insertionSort descFree s).mem_iff.1 hm, rfl, rfl⟩

theorem firstAvailable_fst_unavail (s : List DestPath) (v : Nat)
    (h : unavailIn s v) : unavailIn (firstAvailable s).1 v := by
  intro q hq hpid
  by_contra hav
  rw [Bool.not_eq_false] at hav
  have hmem := markFirstAvail_true_mem (sortDesc s) q hq hav
  have : q.available = false :=
    h q ((List.perm_insertionSort descFree s).mem_iff.1 hmem) hpid
  simp [this] at hav

theorem update_map_pid (pl : List DestPath) (w : Nat) (b : Bool) (f : Nat) :
    ((pl.map fun p =>
        if p.pid = w then { p with available := b, free := f } else p).map
      DestPath.pid) = pl.map DestPath.pid := by
  rw [List.map_map]
  apply List.map_congr_left
  intro p _
  by_cases hp : p.pid = w <;> simp [hp]

theorem update_unavail (pl : List DestPath) (w : Nat) (b : Bool) (f : Nat)
    (v : Nat) (hw : w ≠ v ∨ b = false) (h : unavailIn pl v) :
    unavailIn (update pl w b f) v := by
  unfold update sortDesc
  apply unavailIn_of_perm (List.perm_insertionSort descFree _).symm
  intro q hq hpid
  rw [List.mem_map] at hq
  obtain ⟨p0, hp0, rfl⟩ := hq
  by_cases hpw : p0.pid = w
  · simp only [if_pos hpw] at hpid ⊢
    rcases hw with hw | hw
    · exact absurd (by simpa using hpid ▸ hpw) (by simpa using hw.symm)
    · simp [hw]
  · simp only [if_neg hpw] at hpid ⊢
    exact h p0 hp0 hpid

theorem applyOp_nodup (s : List DestPath) (op : RegOp) (hnd : pidsNodup s) :
    pidsNodup (applyOp s op).1 := by
  cases op with
  | claim =>
    have h1 : ((firstAvailable s).1.map DestPath.pid).Perm (s.map DestPath.pid) := by
      rw [firstAvailable, markFirstAvail_map_pid]
      exact (List.perm_insertionSort descFree s).map DestPath.pid
    exact h1.nodup_iff.2 hnd
  | setAvail w b f =>
    have h1 : ((update s w b f).map DestPath.pid).Perm (s.map DestPath.pid) := by
      rw [update]
      calc ((sortDesc _).map DestPath.pid).Perm
            ((s.map fun p =>
              if p.pid = w then { p with available := b, free := f } else p).map
                DestPath.pid) :=
        (List.perm_insertionSort descFree _).map DestPath.pid
        _ = s.map DestPath.pid := update_map_pid s w b f
    exact h1.nodup_iff.2 hnd

theorem applyOp_unavail (s : List DestPath) (op : RegOp) (v : Nat)
    (hop : ¬ isRelease v op) (h : unavailIn s v) :
    unavailIn (applyOp s op).1 v := by
  cases op with
  | claim => exact firstAvailable_fst_unavail s v h
  | setAvail w b f =>
    apply update_unavail s w b f v _ h
    by_cases hw : w = v
    · subst hw
      rcases b with _ | _
      · exact Or.inr rfl
      · exact absurd ⟨rfl, rfl⟩ hop
    · exact Or.inl hw

theorem runOps_nodup (s : List DestPath) (l : List RegOp) (hnd : pidsNodup s) :
    pidsNodup (runOps s l) := by
  induction l generalizing s with
  | nil => exact hnd
  | cons op l ih => exact ih _ (applyOp_nodup s op hnd)

theorem runOps_unavail (s : List DestPath) (l : List RegOp) (v : Nat)
    (hl : ∀ op ∈ l, ¬ isRelease v op) (h : unavailIn s v) :
    unavailIn (runOps s l) v := by
  induction l generalizing s with
  | nil => exact h
  | cons op l ih =>
    exact ih _ (fun o ho => hl o (List.mem_cons_of_mem _ ho))
      (applyOp_unavail s op v (hl op (List.mem_cons_self _ _)) h)

theorem runOps_append (s : List DestPath) (l1 l2 : List RegOp) :
    runOps s (l1 ++ l2) = runOps (runOps s l1) l2 :=
  List.foldl_append _ _ _ _

theorem opResult_claim (s0 : List DestPath) (ops : List RegOp) (i : Nat)
    (v : Nat) (h : opResult s0 ops i = some v) :
    ops[i]? = some RegOp.claim
  ∧ ∃ p, (firstAvailable (runOps s0 (ops.take i))).2 = some p ∧ p.pid = v := by
  unfold opResult at h
  cases hoi : ops[i]? with
  | none => rw [hoi] at h; cases h
  | some op =>
    rw [hoi] at h
    cases op with
    | setAvail w b f => simp [applyOp] at h
    | claim =>
      simp only [applyOp] at h
      rw [Option.map_eq_some'] at h
      obtain ⟨p, hp, hpid⟩ := h
      exact ⟨rfl, p, hp, hpid⟩

/-- Claim C1: in every trace of registry operations (each operation is
atomic under `pathListMutex`, so every concurrent interleaving is such a
trace), once a `FirstAvailable` claim returns the volume with identity
`v`, no later claim returns `v` until an `Update`/`SetAvailable` with
`available = true` on `v` has occurred in between; hence no two workers
ever hold the same volume simultaneously. -/
theorem registry_at_most_one_claim (s0 : List DestPath) (ops : List RegOp)
    (i j v : Nat) (hnd : pidsNodup s0) (hij : i < j)
    (hi : opResult s0 ops i = some v) (hj : opResult s0 ops j = some v) :
    ∃ k, i < k ∧ k < j ∧ ∃ f, ops[k]? = some (RegOp.setAvail v true f) := by
  by_contra hcon
  push_neg at hcon
  obtain ⟨hopi, pi, hfi, hpidi⟩ := opResult_claim s0 ops i v hi
  obtain ⟨hopj, pj, hfj, hpidj⟩ := opResult_claim s0 ops j v hj
  -- the state just after operation i has v unavailable
  have hndi : pidsNodup (runOps s0 (ops.take i)) := runOps_nodup s0 _ hnd
  have hnds : ((sortDesc (runOps s0 (ops.take i))).map DestPath.pid).Nodup := by
    have := (List.perm_insertionSort descFree
      (runOps s0 (ops.take i))).map DestPath.pid
    exact this.nodup_iff.2 hndi
  have hui1 : unavailIn (runOps s0 (ops.take (i + 1))) v := by
    rw [List.take_succ, runOps_append, hopi]
    have := markFirstAvail_unavail (sortDesc (runOps s0 (ops.take i))) pi hnds hfi
    rw [hpidi] at this
    simpa [runOps, applyOp, firstAvailable] using this
  -- v stays unavailable through the operations strictly between i and j
  have hseg : ops.take j = ops.take (i + 1) ++ (ops.drop (i + 1)).take (j - (i + 1)) := by
    rw [← List.take_add]
    congr 1
    omega
  have huj : unavailIn (runOps s0 (ops.take j)) v := by
    rw [hseg, runOps_append]
    apply runOps_unavail _ _ _ _ hui1
    intro op hop hrel
    obtain ⟨k1, hk1⟩ := List.mem_iff_getElem?.1 hop
    have hk1len : k1 < j - (i + 1) := by
      have := List.getElem?_eq_some.1 hk1
      obtain ⟨hlt, _⟩ := this
      have := List.length_take (j - (i + 1)) (ops.drop (i + 1))
      omega
    have hk2 : (ops.drop (i + 1))[k1]? = some op := by
      rw [List.getElem?_take_of_lt hk1len] at hk1
      exact hk1
    have hk3 : ops[i + 1 + k1]? = some op := by
      rw [List.getElem?_drop] at hk2
      exact hk2
    cases op with
    | claim => exact hrel
    | setAvail w b f =>
      obtain ⟨rfl, rfl⟩ : w = v ∧ b = true := hrel
      exact hcon (i + 1 + k1) (by omega) (by omega) f hk3
  -- but operation j claims v, which requires v to be available
  obtain ⟨q, hqmem, hqpid, hqav⟩ :=
    firstAvailable_claims_available (runOps s0 (ops.take j)) pj hfj
  have : q.available = false := huj q hqmem (hpidj ▸ hqpid)
  simp [this] at hqav

/-! ## Theorems: eviction, release discipline, pool sizing -/

/-- Claim C4 (code bug): `pathList.Remove` never changes the registry
the caller holds — `copy` into the fresh nil slice copies zero elements,
so `slices.Index` cannot find the target, and the final assignment only
rebinds the local receiver pointer.  Evaluated at the registry of
`TestRemove`: the volume count stays 3, and the state the test expects
(the second volume removed) is not reached. -/
theorem remove_leaves_registry_unchanged :
    (∀ (pl : List DestPath) (v : Nat), (removeGo pl v).1 = pl)
  ∧ (removeGo removeDemo 1).1 = removeDemo
  ∧ (removeGo removeDemo 1).1.length = 3
  ∧ (removeGo removeDemo 1).1
      ≠ [⟨0, "/test1", 0, true⟩, ⟨2, "/test3", 0, false⟩] := by
  refine ⟨fun pl v => rfl, rfl, rfl, by decide⟩

/-- Claim C5 (code bug): on the exit path where `os.Remove` of the
source fails after a successful rename, `movePlot` returns before its
final `paths.Update(dstPath, true)`, so the claimed volume is never
released (on every other claimed exit path it is released exactly
once). -/
theorem movePlot_source_delete_failure_skips_release :
    (movePlot moveSrcRemoveFail).claimed = true
  ∧ (movePlot moveSrcRemoveFail).failed = true
  ∧ (movePlot moveSrcRemoveFail).releases = 0
  ∧ (movePlot moveAllOk).releases = 1
  ∧ (movePlot { moveAllOk with copyOk := false }).releases = 1
  ∧ (movePlot { moveAllOk with renameOk := false }).releases = 1 := by
  decide

/-- Claim C6 (amended): a size mismatch between the copied byte count
and the declared size makes `savePlot` delete the temp file, return
before the rename (so no file appears under the final name), release
the claimed volume exactly once, and fail the job; the network
connection has however already received the success byte 1 when the job
was submitted, and only then receives the failure byte 0 from the
failing job; and in the `enqueuePlotMove` local lineage the mismatch
branch removes the temp file but falls through, so the deletion of the
source file is still attempted (the savePlot-based local lineage leaves
the source intact, as it never deletes it). -/
theorem savePlot_size_mismatch_aborts (e : SaveEnv) (e2 : EnqMoveEnv)
    (hc : e.createOk = true) (hcp : e.copyOk = true)
    (hm : e.written ≠ e.size)
    (h2o : e2.openOk = true) (h2s : e2.statOk = true)
    (h2m : e2.written ≠ e2.size) :
    savePlot e
      = { tmpRemoved := true, renamed := false, releases := 1, failed := true }
  ∧ savePlotWireReplies true e = [1, 0]
  ∧ (enqueuePlotMove e2).tmpRemoved = true
  ∧ (enqueuePlotMove e2).srcDeleteTried = true := by
  have h1 : savePlot e
      = { tmpRemoved := true, renamed := false, releases := 1, failed := true } := by
    unfold savePlot
    rw [hc, hcp]
    simp [hm]
  have h2 : enqueuePlotMove e2
      = { claimed := true, releases := 2, tmpRemoved := decide (e2.written ≠ e2.size),
          renamed := e2.renameOk, srcDeleteTried := true } := by
    unfold enqueuePlotMove
    rw [h2o, h2s]
    simp
  refine ⟨h1, by simp [savePlotWireReplies, h1], ?_, by simp [h2]⟩
  rw [h2]
  simpa using h2m

/-- Witness for C6: a stream that delivered 5 of 7 declared bytes, in
both the savePlot lineage and the enqueuePlotMove lineage (where the
rename of the removed temp file then fails). -/
theorem savePlot_size_mismatch_aborts_witness :
    savePlot ⟨true, true, 5, 7, true, true⟩
      = { tmpRemoved := true, renamed := false, releases := 1, failed := true }
  ∧ savePlotWireReplies true ⟨true, true, 5, 7, true, true⟩ = [1, 0]
  ∧ (enqueuePlotMove ⟨true, true, true, true, 5, 7, false, true⟩).tmpRemoved = true
  ∧ (enqueuePlotMove ⟨true, true, true, true, 5, 7, false, true⟩).srcDeleteTried = true :=
  savePlot_size_mismatch_aborts ⟨true, true, 5, 7, true, true⟩
    ⟨true, true, true, true, 5, 7, false, true⟩ rfl rfl (by decide) rfl rfl (by decide)

/-- Counterexample for C6 as stated: on a size mismatch the
`enqueuePlotMove` lineage still attempts `os.Remove` on the source file,
which is therefore not left intact; and the network connection does not
receive a failure reply — its first byte is the success byte 1, written
when the job was submitted, before the mismatch was detected. -/
theorem savePlot_mismatch_claim_counterexample :
    (enqueuePlotMove ⟨true, true, true, true, 5, 7, false, true⟩).srcDeleteTried = true
  ∧ savePlotWireReplies true ⟨true, true, 5, 7, true, true⟩ ≠ [0]
  ∧ (savePlotWireReplies true ⟨true, true, 5, 7, true, true⟩).head? = some 1 := by
  decide

/-- Claim C7 (amended): in local/server mode the pool size is
`configuredMax == 0 ? volumeCount : min(configuredMax, volumeCount)`
with a floor of 1, never 0; the client-mode lineage computes the same
whenever `Client.Enabled` is false; and on every eviction iteration of
the selection loop the formula is recomputed on the post-`Remove`
registry count and applied to the live pool capacity (`Tune`). -/
theorem getPoolSize_formula (m c : Nat) :
    getPoolSize m c = max 1 (if m = 0 then c else min m c)
  ∧ 0 < getPoolSize m c
  ∧ (∀ b : Bool, b = false → getPoolSizeClient b m c = getPoolSize m c)
  ∧ ∀ (st : SowerState) (fileSize : Nat) (pl2 : List DestPath) (p : DestPath),
      firstAvailable st.paths = (pl2, some p) → ¬ fileSize < p.free →
      selectLoopIter st fileSize
        = SelectStep.evicted
            { paths := (removeGo pl2 p.pid).1,
              poolCap := getPoolSize st.maxThreads (removeGo pl2 p.pid).1.length,
              maxThreads := st.maxThreads } := by
  refine ⟨?_, ?_, ?_, ?_⟩
  · unfold getPoolSize
    by_cases hm : m = 0 <;> by_cases hcm : c < m <;> by_cases hc : c = 0 <;>
      simp [hm, hcm, hc] <;> omega
  · unfold getPoolSize
    by_cases hm : m = 0 <;> by_cases hcm : c < m <;> by_cases hc : c = 0 <;>
      simp [hm, hcm, hc] <;> omega
  · intro b hb
    subst hb
    rfl
  · intro st fileSize pl2 p hfa hlt
    unfold selectLoopIter
    rw [hfa]
    simp only [if_neg hlt]
    by_cases hcap :
        st.poolCap = getPoolSize st.maxThreads (removeGo pl2 p.pid).1.length <;>
      simp [hcap]

/-- Witness for C7: configuredMax 0 with 4 volumes gives pool size 4 in
both lineages; and evicting B (free 200) from the demo registry for a
300-sized file retunes the pool to the formula value on the post-Remove
registry count. -/
theorem getPoolSize_formula_witness :
    getPoolSize 0 4 = max 1 (if (0 : Nat) = 0 then 4 else min 0 4)
  ∧ 0 < getPoolSize 0 4
  ∧ getPoolSizeClient false 0 4 = getPoolSize 0 4
  ∧ selectLoopIter evictDemoState 300
      = SelectStep.evicted
          { paths := (removeGo capacityStep1 1).1,
            poolCap := getPoolSize 0 (removeGo capacityStep1 1).1.length,
            maxThreads := 0 } :=
  ⟨(getPoolSize_formula 0 4).1, (getPoolSize_formula 0 4).2.1,
    (getPoolSize_formula 0 4).2.2.1 false rfl,
    (getPoolSize_formula 0 4).2.2.2 evictDemoState 300 capacityStep1
      ⟨1, "B", 200, false⟩ (by decide) (by decide)⟩

/-- Counterexample for C7 as stated: with `Client.Enabled` set and
`MaxThreads = 0` the client-mode `getPoolSize` returns 0 — not the
claimed formula value (here 3) and not positive. -/
theorem getPoolSizeClient_counterexample :
    getPoolSizeClient true 0 3 = 0
  ∧ getPoolSize 0 3 = 3
  ∧ getPoolSizeClient true 0 3 ≠ getPoolSize 0 3
  ∧ ¬ 0 < getPoolSizeClient true 0 3 := by
  decide

/-- Claim C8 (code bug): after a failed rename — a failed commit —
`enqueuePlotMove` only logs the error and still executes
`os.Remove(src.Name())`, deleting the source file; by contrast the
part_002 `movePlot` lineage returns on rename failure without touching
the source. -/
theorem enqueuePlotMove_deletes_source_despite_rename_failure :
    (enqueuePlotMove enqRenameFail).claimed = true
  ∧ (enqueuePlotMove enqRenameFail).renamed = false
  ∧ (enqueuePlotMove enqRenameFail).srcDeleteTried = true
  ∧ (movePlot moveRenameFail).srcDeleteTried = false := by
  decide

/-- Witness for C1: in the trace claim-release-claim on a one-volume
registry both claims return volume 0, and the theorem produces the
release sitting between them. -/
theorem registry_at_most_one_claim_witness :
    pidsNodup traceDemoState
  ∧ opResult traceDemoState traceDemoOps 0 = some 0
  ∧ opResult traceDemoState traceDemoOps 2 = some 0
  ∧ ∃ k, 0 < k ∧ k < 2 ∧ ∃ f, traceDemoOps[k]? = some (RegOp.setAvail 0 true f) :=
  ⟨by unfold pidsNodup; decide, by decide, by decide,
    registry_at_most_one_claim traceDemoState traceDemoOps 0 2 0
      (by unfold pidsNodup; decide) (by decide) (by decide) (by decide)⟩

end Shiplot
